import Mathlib

/-!
Shallow embedding of the customer-support multi-agent system's product
search and refund workflow, translated from
`customer_support_agent/services/rag_search.py`,
`customer_support_agent/tools/workflow_tools.py`,
`customer_support_agent/tools/product_tools.py` and the agent
instructions in `customer_support_agent/config.py`.

Strings are modelled as Lean `String` / `List Char`; Python floats for
prices and similarities are modelled as exact rationals (`ℚ`); Firestore
collections are modelled as association lists; the embedding model and
cosine similarity are abstracted as an arbitrary similarity function
parameter (the list-processing pipeline never inspects its values).
-/

/-- ASCII lowercasing of a character list, modelling Python's `.lower()`
on the ASCII queries and product fields used by the system. -/
def strLower (s : List Char) : List Char := s.map Char.toLower

/-- Whitespace characters recognised by Python's `\s` / `.strip()` (ASCII). -/
def isSpaceChar (c : Char) : Bool :=
  c = ' ' || c = '\t' || c = '\n' || c = '\x0d' || c = '\x0b' || c = '\x0c'

/-- `listIsPre pat s` holds when `pat` is a prefix of `s`. -/
def listIsPre (pat s : List Char) : Bool := decide (s.take pat.length = pat)

/-- Substring test, modelling Python's `pat in s` on strings. -/
def isSub (pat : List Char) : List Char → Bool
  | [] => decide (pat = [])
  | c :: cs => listIsPre pat (c :: cs) || isSub pat cs

/-- Numeric value of a digit run, modelling `float(match.group(1))`
(the group is `\d+`, so the value is a natural number). -/
def natOfDigits (ds : List Char) : ℕ :=
  ds.foldl (fun acc c => 10 * acc + (c.toNat - '0'.toNat)) 0

/-- Category keyword table of `RAGProductSearch._extract_category_keywords`
(`rag_search.py` lines 96-106), in Python dict insertion order. -/
def category_keywords : List (String × List String) :=
  [("laptop", ["laptop", "notebook", "computer"]),
   ("keyboard", ["keyboard"]),
   ("mouse", ["mouse"]),
   ("monitor", ["monitor", "display", "screen"]),
   ("desk", ["desk"]),
   ("chair", ["chair", "seating"]),
   ("headset", ["headset", "headphone"]),
   ("webcam", ["webcam", "camera"]),
   ("microphone", ["microphone", "mic"])]

/-- `RAGProductSearch._extract_category_keywords`: collects the keyword
lists of every table key occurring in the lowercased query. -/
def extract_category_keywords (query : String) : List String :=
  let ql := strLower query.toList
  (category_keywords.filter (fun kv => isSub kv.1.toList ql)).foldl
    (fun acc kv => acc ++ kv.2) []

/-- A Firestore document of the `products` collection. -/
structure Doc where
  id : String
  name : String
  price : ℚ
  category : String
  description : String
  keywords : List String
  embedding : Option (List ℚ)
deriving DecidableEq

/-- A scored search candidate, the dict built inside
`RAGProductSearch._fallback_search` (lines 252-259). -/
structure Product where
  id : String
  name : String
  price : ℚ
  category : String
  description : String
  similarity : ℚ
deriving DecidableEq

/-- Per-candidate category match score of `_filter_by_category`
(lines 137-145): for each keyword, +3 if it occurs in the name,
else +2 if in the description, else +1 if in the category field. -/
def matchScore (kws : List String) (p : Product) : ℕ :=
  kws.foldl
    (fun acc kw =>
      if isSub kw.toList (strLower p.name.toList) then acc + 3
      else if isSub kw.toList (strLower p.description.toList) then acc + 2
      else if isSub kw.toList (strLower p.category.toList) then acc + 1
      else acc) 0

/-- Lexicographic order on (category match score, similarity) sort keys. -/
def keyLe (a b : ℕ × ℚ) : Prop := a.1 < b.1 ∨ (a.1 = b.1 ∧ a.2 ≤ b.2)

instance (a b : ℕ × ℚ) : Decidable (keyLe a b) := by
  unfold keyLe; infer_instance

/-- Ordering used by the `filtered.sort(..., reverse=True)` call of
`_filter_by_category` (lines 156-159): descending in
(category match score, similarity). -/
def catRel (kws : List String) (p q : Product) : Prop :=
  keyLe (matchScore kws q, q.similarity) (matchScore kws p, p.similarity)

instance (kws : List String) : DecidableRel (catRel kws) := fun p q => by
  unfold catRel; infer_instance

/-- Ordering used by `all_products.sort(key=similarity, reverse=True)`
(line 262): descending similarity. -/
def simGE (p q : Product) : Prop := q.similarity ≤ p.similarity

instance : DecidableRel simGE := fun p q => by
  unfold simGE; infer_instance

/-- `RAGProductSearch._filter_by_category` (lines 116-163): when the
keyword set is empty the input passes through unchanged; otherwise
candidates with match score 0 are dropped and the survivors are sorted
by descending (match score, similarity). Python's stable
`sort(reverse=True)` is `insertionSort` with the reversed relation. -/
def filter_by_category (products : List Product) (query : String) : List Product :=
  let kws := extract_category_keywords query
  if kws = [] then products
  else List.insertionSort (catRel kws)
    (products.filter (fun p => 0 < matchScore kws p))

/-- One pattern of `_extract_price_constraint`, as the literal keyword
before `\s*\$?(\d+)`. -/
def pricePatterns : List (List Char) :=
  ["under".toList, "below".toList, "less than".toList,
   "cheaper than".toList, "max".toList, "maximum".toList]

/-- Strip a literal keyword prefix, returning the remaining characters. -/
def matchKw : List Char → List Char → Option (List Char)
  | [], s => some s
  | _ :: _, [] => none
  | k :: ks, c :: cs => if c = k then matchKw ks cs else none

/-- Match `\s*\$?(\d+)` at the front of `s`, returning the numeric group. -/
def matchNum (s : List Char) : Option ℕ :=
  let s1 := s.dropWhile isSpaceChar
  let s2 := match s1 with
    | '$' :: rest => rest
    | _ => s1
  let ds := s2.takeWhile Char.isDigit
  if ds.isEmpty then none else some (natOfDigits ds)

/-- `re.search` of one pattern `kw\s*\$?(\d+)`: the match at the leftmost
position where the whole pattern matches. -/
def searchPat (kw : List Char) : List Char → Option ℕ
  | [] =>
    match matchKw kw [] with
    | some r => matchNum r
    | none => none
  | c :: cs =>
    match matchKw kw (c :: cs) with
    | some r =>
      match matchNum r with
      | some n => some n
      | none => searchPat kw cs
    | none => searchPat kw cs

/-- The `for pattern in patterns` loop of `_extract_price_constraint`
(lines 188-191): return the first pattern's match, in list order. -/
def firstMatch : List (List Char) → List Char → Option ℕ
  | [], _ => none
  | kw :: rest, s =>
    match searchPat kw s with
    | some n => some n
    | none => firstMatch rest s

/-- `RAGProductSearch._extract_price_constraint` (lines 165-193). -/
def extract_price_constraint (query : String) : Option ℚ :=
  match firstMatch pricePatterns (strLower query.toList) with
  | some n => some (n : ℚ)
  | none => none

/-- The candidate pool built by the document loop of `_fallback_search`
(lines 240-259): documents without an embedding are skipped, the rest are
scored by the similarity function (cosine similarity in the source,
abstracted here). -/
def mkPool (sim : List ℚ → List ℚ → ℚ) (queryEmbedding : List ℚ)
    (catalog : List Doc) : List Product :=
  catalog.filterMap fun d =>
    (d.embedding).map fun e =>
      { id := d.id, name := d.name, price := d.price, category := d.category,
        description := d.description, similarity := sim queryEmbedding e }

/-- The similarity ranking step (line 262). -/
def simRank (pool : List Product) : List Product :=
  List.insertionSort simGE pool

/-- The price filter of `_fallback_search` (lines 270-274): Python's
`if max_price:` is falsy both for `None` and for `0.0`, so a ceiling of 0
applies no filtering. -/
def applyPrice : Option ℚ → List Product → List Product
  | none, l => l
  | some m, l => if m ≠ 0 then l.filter (fun p => decide (p.price ≤ m)) else l

/-- `RAGProductSearch._fallback_search` (lines 229-285). -/
def fallback_search (sim : List ℚ → List ℚ → ℚ) (catalog : List Doc)
    (query_embedding : List ℚ) (limit : ℕ) (query : String)
    (max_price : Option ℚ) : List Product :=
  let all_products := simRank (mkPool sim query_embedding catalog)
  let top_products := all_products.take (limit * 3)
  let filtered := applyPrice max_price (filter_by_category top_products query)
  if filtered.isEmpty then all_products.take limit else filtered.take limit

/-- `RAGProductSearch.search` (lines 195-227): extract a price constraint
from the query when none is given, return `[]` when embedding generation
fails after retries (`embedResult = none`), otherwise run the fallback
cosine-similarity search. -/
def ragSearch (sim : List ℚ → List ℚ → ℚ) (catalog : List Doc)
    (embedResult : Option (List ℚ)) (query : String) (limit : ℕ)
    (max_price : Option ℚ) : List Product :=
  let mp := match max_price with
    | none => extract_price_constraint query
    | some m => some m
  match embedResult with
  | none => []
  | some qe => fallback_search sim catalog qe limit query mp

/-- A document of the `refund_eligibility` collection; `eligible` is
optional because the tool reads it with `result.get("eligible", False)`. -/
structure EligDoc where
  eligible : Option Bool
  reason : Option String
deriving DecidableEq

/-- A document of the `refunds` collection, as written by `process_refund`. -/
structure RefundRecord where
  order_id : String
  reason : String
  status : String
deriving DecidableEq

/-- The Firestore collections the refund workflow touches: order ids of
existing `orders` documents, the `refund_eligibility` collection and the
`refunds` collection, as association lists. -/
structure DB where
  orders : List String
  eligibility : List (String × EligDoc)
  refunds : List (String × RefundRecord)
deriving DecidableEq

/-- The ADK `ToolContext` slice the workflow tools mutate:
`tool_context.actions.escalate`. -/
structure ToolCtx where
  escalate : Bool
deriving DecidableEq

/-- Result dict of `validate_order_id`. -/
structure ValidateResult where
  status : String
deriving DecidableEq

/-- `validate_order_id` (`workflow_tools.py` lines 55-77): status is
`"valid"` iff the order document exists; on a missing order the escalate
flag is set to stop the sequential workflow. -/
def validate_order_id (db : DB) (order_id : String) (ctx : ToolCtx) :
    ValidateResult × ToolCtx :=
  let ex := order_id ∈ db.orders
  let r : ValidateResult := { status := if ex then "valid" else "invalid" }
  (r, if ex then ctx else { ctx with escalate := true })

/-- Result dict of `check_refund_eligibility`: `status` is `"success"`
or `"not_found"`; `eligible` is present only when the record exists
(defaulted to `false` when the field is missing, per
`result.get("eligible", False)`). -/
structure EligResult where
  status : String
  eligible : Option Bool
deriving DecidableEq

/-- `check_refund_eligibility` (`workflow_tools.py` lines 80-116). -/
def check_refund_eligibility (db : DB) (order_id : String) (ctx : ToolCtx) :
    EligResult × ToolCtx :=
  match List.lookup order_id db.eligibility with
  | some doc =>
    let e := doc.eligible.getD false
    ({ status := "success", eligible := some e },
     if e then ctx else { ctx with escalate := true })
  | none =>
    ({ status := "not_found", eligible := none }, { ctx with escalate := true })

/-- Output word of the `eligibility_checker` agent, per its instruction in
`config.py` (the OUTPUT block of the `eligibility_checker` entry):
`eligible=True` ↦ "eligible", `eligible=False` ↦ "ineligible",
`status="not_found"` ↦ "no_eligibility_data". This word is saved to the
session as `eligibility_status` via `output_key` in `workflow_agents.py`. -/
def eligibility_checker_output (r : EligResult) : String :=
  if r.eligible = some true then "eligible"
  else if r.eligible = some false then "ineligible"
  else if r.status = "not_found" then "no_eligibility_data"
  else ""

/-- Python's `order_id.replace("ORD-", "")`: removes every (non-overlapping,
left-to-right) occurrence of `"ORD-"`. -/
def stripORD : List Char → List Char
  | 'O' :: 'R' :: 'D' :: '-' :: rest => stripORD rest
  | c :: cs => c :: stripORD cs
  | [] => []

/-- The refund id built at `workflow_tools.py` line 145:
`f"REF-{order_id.replace('ORD-', '')}"`. -/
def refundIdOf (order_id : String) : String :=
  "REF-" ++ String.mk (stripORD order_id.toList)

/-- Result dict of `process_refund`; `refund_id` is absent on error. -/
structure RefundResult where
  status : String
  refund_id : Option String
  message : String
deriving DecidableEq

/-- `process_refund` (`workflow_tools.py` lines 119-157): re-validates the
order's existence, then writes a `refunds` document keyed by the derived
refund id with initial status `"pending"`. -/
def process_refund (db : DB) (order_id reason : String) :
    DB × RefundResult :=
  if order_id ∈ db.orders then
    let rid := refundIdOf order_id
    ({ db with refunds :=
        (rid, { order_id := order_id, reason := reason, status := "pending" })
          :: db.refunds },
     { status := "success", refund_id := some rid, message := "Refund submitted" })
  else
    (db, { status := "error", refund_id := none, message := "Order not found" })

/-- The session-state keys `search_products` touches
(`tool_context.state`); a key absent from the state dict is `none`. -/
structure SessionState where
  last_product_id : Option String
  last_product_name : Option String
  last_search_query : Option String
  products_to_detail : Option (List String)
  detailed_product_ids : Option (List String)
deriving DecidableEq

/-- Projection of a returned product dict to the fields the session-state
bookkeeping of `search_products` reads (`id` and `name`). -/
structure ResultItem where
  id : String
  name : String
deriving DecidableEq

/-- Result of `search_products`: the status string, the returned items and
the `method` tag (`"RAG"` or `"keyword"`). -/
structure SearchOutcome where
  status : String
  items : List ResultItem
  method : String
deriving DecidableEq

/-- Python's `.strip()` on ASCII whitespace. -/
def stripEnds (s : List Char) : List Char :=
  ((s.dropWhile isSpaceChar).reverse.dropWhile isSpaceChar).reverse

/-- The keyword-fallback matching of `search_products`
(`product_tools.py` lines 61-84): search terms are the stripped lowercased
query plus its plural/singular variant; a document matches when some term
is a substring of its lowercased name or category, or an exact member of
its `keywords` list. -/
def keywordSearch (catalog : List Doc) (query : String) : List ResultItem :=
  let ql := stripEnds (strLower query.toList)
  let terms := ql :: (if ql.getLast? = some 's'
    then [ql.dropLast] else [ql ++ ['s']])
  catalog.filterMap fun d =>
    if terms.any (fun t =>
        isSub t (strLower d.name.toList) || isSub t (strLower d.category.toList)
          || d.keywords.any (fun k => k.toList = t))
    then some { id := d.id, name := d.name }
    else none

/-- The session-state write block shared by both paths of
`search_products` (`product_tools.py` lines 40-53 and 86-99). -/
def saveSearchState (st : SessionState) (query : String) (first : ResultItem)
    (ids : List String) : SessionState :=
  { st with
    last_product_id := some first.id,
    last_product_name := some first.name,
    last_search_query := some query,
    products_to_detail := some ids,
    detailed_product_ids := some [] }

/-- `search_products` (`product_tools.py` lines 24-102). `ragOutcome` is
the outcome of the `rag.search` call inside the `try` block: `none` when
RAG is unavailable or raised (falling through to keyword search), `some l`
when it returned the list `l`. On a non-empty result list the first item
and all ids are persisted to the session state; on an empty one the state
is untouched and status is `"no_results"`. -/
def search_products (catalog : List Doc) (query : String)
    (ragOutcome : Option (List Product)) (st : SessionState) :
    SearchOutcome × SessionState :=
  match ragOutcome with
  | some products =>
    let items := products.map fun p => ({ id := p.id, name := p.name } : ResultItem)
    match items with
    | [] => ({ status := "no_results", items := [], method := "RAG" }, st)
    | first :: _ =>
      ({ status := "success", items := items, method := "RAG" },
       saveSearchState st query first (items.map (·.id)))
  | none =>
    match keywordSearch catalog query with
    | [] => ({ status := "no_results", items := [], method := "keyword" }, st)
    | first :: rest =>
      ({ status := "success", items := first :: rest, method := "keyword" },
       saveSearchState st query first ((first :: rest).map (·.id)))

/-- The similarity-ranked candidate pool of `_fallback_search` (its
`all_products` after the sort at line 262). -/
def poolOf (sim : List ℚ → List ℚ → ℚ) (catalog : List Doc)
    (qe : List ℚ) : List Product :=
  simRank (mkPool sim qe catalog)

/-- The category-filtered stage of `_fallback_search` (its `filtered`
before the price filter): the top `limit * 3` ranked candidates passed
through the category filter. -/
def catFiltOf (sim : List ℚ → List ℚ → ℚ) (catalog : List Doc) (qe : List ℚ)
    (limit : ℕ) (query : String) : List Product :=
  filter_by_category ((poolOf sim catalog qe).take (limit * 3)) query

/-- The price-filtered stage of `_fallback_search` (its `filtered` after
the price filter). -/
def priceFiltOf (sim : List ℚ → List ℚ → ℚ) (catalog : List Doc) (qe : List ℚ)
    (limit : ℕ) (query : String) (mp : Option ℚ) : List Product :=
  applyPrice mp (catFiltOf sim catalog qe limit query)

/-- The category filter as claim C2 words it (field contributions of one
keyword accumulate additively across name, description and category):
kept for comparison with the source's `matchScore`. -/
def matchScoreSpec (kws : List String) (p : Product) : ℕ :=
  (kws.map (fun kw =>
    (if isSub kw.toList (strLower p.name.toList) then 3 else 0) +
    (if isSub kw.toList (strLower p.description.toList) then 2 else 0) +
    (if isSub kw.toList (strLower p.category.toList) then 1 else 0))).sum

/-- Descending (additive score, similarity) ordering for the claim-worded
category filter. -/
def catRelSpec (kws : List String) (p q : Product) : Prop :=
  keyLe (matchScoreSpec kws q, q.similarity) (matchScoreSpec kws p, p.similarity)

instance (kws : List String) : DecidableRel (catRelSpec kws) := fun p q => by
  unfold catRelSpec; infer_instance

/-- The category filter as claim C2 words it, for comparison with
`filter_by_category`. -/
def filter_by_category_spec (products : List Product) (query : String) :
    List Product :=
  let kws := extract_category_keywords query
  if kws = [] then products
  else List.insertionSort (catRelSpec kws)
    (products.filter (fun p => 0 < matchScoreSpec kws p))

/-- The price extractor as claim C8 words it ("returns the first numeric
match in the query"): at each position, left to right, try every pattern;
kept for comparison with `extract_price_constraint`. -/
def tryPatsAt (pats : List (List Char)) (s : List Char) : Option ℕ :=
  match pats with
  | [] => none
  | kw :: rest =>
    match (matchKw kw s).bind matchNum with
    | some n => some n
    | none => tryPatsAt rest s

/-- Leftmost match over all patterns simultaneously (claim C8's wording). -/
def firstInQuery (pats : List (List Char)) : List Char → Option ℕ
  | [] => tryPatsAt pats []
  | c :: cs =>
    match tryPatsAt pats (c :: cs) with
    | some n => some n
    | none => firstInQuery pats cs

/-- A concrete similarity function for witnesses: the head of the product
embedding. -/
def simHead : List ℚ → List ℚ → ℚ := fun _ e => e.headD 0

/-- Sample document: a desk. -/
def deskDoc : Doc :=
  { id := "P1", name := "Standing Desk", price := 500, category := "Furniture",
    description := "A desk for work", keywords := [], embedding := some [2] }

/-- Sample document: a cheap mouse. -/
def mouseDoc : Doc :=
  { id := "P2", name := "USB Mouse", price := 20, category := "Accessories",
    description := "A mouse", keywords := [], embedding := some [1] }

/-- Sample catalog with one desk and one mouse. -/
def sampleCatalog : List Doc := [deskDoc, mouseDoc]

/-- Sample document: an expensive mouse. -/
def usbMouse : Doc :=
  { id := "M1", name := "USB Mouse", price := 100, category := "Accessories",
    description := "A wired mouse", keywords := [], embedding := some [2] }

/-- Sample document: a cheap wireless mouse. -/
def wirelessMouse : Doc :=
  { id := "M2", name := "Wireless Mouse", price := 30, category := "Accessories",
    description := "A wireless mouse", keywords := [], embedding := some [1] }

/-- Sample catalog with two mice at different prices. -/
def mouseCatalog : List Doc := [usbMouse, wirelessMouse]

/-- Sample candidate whose name alone matches "mouse". -/
def prodN : Product :=
  { id := "N", name := "optical mouse", price := 10, category := "electronics",
    description := "usb device", similarity := 0 }

/-- Sample candidate whose description and category match "mouse". -/
def prodD : Product :=
  { id := "D", name := "trackpad", price := 10, category := "mouse accessories",
    description := "works like a mouse", similarity := 1 }

/-- Sample candidate matching "mouse" in all three fields. -/
def prodA : Product :=
  { id := "A", name := "wireless mouse", price := 1,
    category := "mouse accessories", description := "a mouse pad",
    similarity := 0 }

theorem keyLe_total (a b : ℕ × ℚ) : keyLe a b ∨ keyLe b a := by
  unfold keyLe
  rcases lt_trichotomy a.1 b.1 with h | h | h
  · exact Or.inl (Or.inl h)
  · rcases le_total a.2 b.2 with h2 | h2
    · exact Or.inl (Or.inr ⟨h, h2⟩)
    · exact Or.inr (Or.inr ⟨h.symm, h2⟩)
  · exact Or.inr (Or.inl h)

theorem keyLe_trans (a b c : ℕ × ℚ) :
    keyLe a b → keyLe b c → keyLe a c := by
  unfold keyLe
  rintro (h1 | ⟨e1, l1⟩) (h2 | ⟨e2, l2⟩)
  · exact Or.inl (lt_trans h1 h2)
  · exact Or.inl (e2 ▸ h1)
  · exact Or.inl (e1 ▸ h2)
  · exact Or.inr ⟨e1.trans e2, le_trans l1 l2⟩

instance (kws : List String) : IsTotal Product (catRel kws) := by
  constructor
  intro p q
  unfold catRel
  exact keyLe_total _ _

instance (kws : List String) : IsTrans Product (catRel kws) := by
  constructor
  intro p q r h1 h2
  unfold catRel at *
  exact keyLe_trans _ _ _ h2 h1

theorem applyPrice_none (l : List Product) : applyPrice none l = l := rfl

theorem applyPrice_zero (l : List Product) : applyPrice (some 0) l = l := by
  simp [applyPrice]

theorem applyPrice_subset (mp : Option ℚ) (l : List Product) :
    applyPrice mp l ⊆ l := by
  cases mp with
  | none => exact fun x hx => hx
  | some m =>
    simp only [applyPrice]
    by_cases h : m ≠ 0
    · rw [if_pos h]; exact fun x hx => List.mem_of_mem_filter hx
    · rw [if_neg h]; exact fun x hx => hx

theorem mem_applyPrice_le {m : ℚ} {l : List Product} {p : Product}
    (hm : m ≠ 0) (hp : p ∈ applyPrice (some m) l) : p.price ≤ m := by
  simp only [applyPrice] at hp
  rw [if_pos hm] at hp
  have := List.of_mem_filter hp
  exact of_decide_eq_true this

theorem filter_by_category_nil_kws {query : String}
    (h : extract_category_keywords query = []) (l : List Product) :
    filter_by_category l query = l := by
  unfold filter_by_category
  rw [h]
  simp

theorem filter_by_category_subset (l : List Product) (query : String) :
    filter_by_category l query ⊆ l := by
  unfold filter_by_category
  by_cases h : extract_category_keywords query = []
  · simp [h]
  · rw [if_neg h]
    intro x hx
    exact (List.mem_filter.mp ((List.mem_insertionSort _).mp hx)).1

theorem mem_mkPool {sim : List ℚ → List ℚ → ℚ} {qe : List ℚ}
    {catalog : List Doc} {p : Product} (hp : p ∈ mkPool sim qe catalog) :
    ∃ d ∈ catalog, (d.embedding).isSome ∧ p.id = d.id ∧ p.name = d.name ∧
      p.price = d.price ∧ p.category = d.category ∧
      p.description = d.description := by
  rw [mkPool, List.mem_filterMap] at hp
  obtain ⟨d, hd, hmap⟩ := hp
  cases he : d.embedding with
  | none => rw [he] at hmap; simp at hmap
  | some e =>
    rw [he] at hmap
    simp only [Option.map_some'] at hmap
    obtain rfl := Option.some.inj hmap
    exact ⟨d, hd, by rw [he]; rfl, rfl, rfl, rfl, rfl, rfl⟩

theorem fallback_search_eq (sim : List ℚ → List ℚ → ℚ) (catalog : List Doc)
    (qe : List ℚ) (limit : ℕ) (query : String) (mp : Option ℚ) :
    fallback_search sim catalog qe limit query mp =
      if (priceFiltOf sim catalog qe limit query mp).isEmpty
      then (poolOf sim catalog qe).take limit
      else (priceFiltOf sim catalog qe limit query mp).take limit := rfl

theorem foldl_add_sum {α : Type} (g : α → ℕ) (l : List α) (n : ℕ) :
    l.foldl (fun acc x => acc + g x) n = n + (l.map g).sum := by
  induction l generalizing n with
  | nil => simp
  | cons x xs ih => simp [ih]; omega

theorem matchScore_eq_sum (kws : List String) (p : Product) :
    matchScore kws p = (kws.map (fun kw =>
      if isSub kw.toList (strLower p.name.toList) then 3
      else if isSub kw.toList (strLower p.description.toList) then 2
      else if isSub kw.toList (strLower p.category.toList) then 1
      else 0)).sum := by
  unfold matchScore
  have hfun : (fun (acc : ℕ) (kw : String) =>
      if isSub kw.toList (strLower p.name.toList) then acc + 3
      else if isSub kw.toList (strLower p.description.toList) then acc + 2
      else if isSub kw.toList (strLower p.category.toList) then acc + 1
      else acc) = fun acc kw => acc + (fun kw =>
      if isSub kw.toList (strLower p.name.toList) then 3
      else if isSub kw.toList (strLower p.description.toList) then 2
      else if isSub kw.toList (strLower p.category.toList) then 1
      else 0) kw := by
    funext acc kw
    dsimp only
    split_ifs <;> omega
  rw [hfun, foldl_add_sum]
  omega

theorem firstMatch_eq_none_iff (pats : List (List Char)) (s : List Char) :
    firstMatch pats s = none ↔ ∀ kw ∈ pats, searchPat kw s = none := by
  induction pats with
  | nil => simp [firstMatch]
  | cons kw rest ih =>
    unfold firstMatch
    cases h : searchPat kw s with
    | some n => simp [h]
    | none => simpa [h] using ih

theorem mem_simRank {p : Product} {pool : List Product} :
    p ∈ simRank pool ↔ p ∈ pool :=
  (List.perm_insertionSort _ _).mem_iff

theorem fallback_bounded_in_catalog (sim : List ℚ → List ℚ → ℚ)
    (catalog : List Doc) (qe : List ℚ) (limit : ℕ) (query : String)
    (mp : Option ℚ) :
    (fallback_search sim catalog qe limit query mp).length ≤ limit ∧
    ∀ p ∈ fallback_search sim catalog qe limit query mp,
      ∃ d ∈ catalog, (d.embedding).isSome ∧ p.id = d.id ∧ p.name = d.name ∧
        p.price = d.price ∧ p.category = d.category ∧
        p.description = d.description := by
  rw [fallback_search_eq]
  by_cases h : (priceFiltOf sim catalog qe limit query mp).isEmpty
  · rw [if_pos h]
    refine ⟨List.length_take_le _ _, fun p hp => ?_⟩
    have h1 : p ∈ poolOf sim catalog qe := List.take_subset _ _ hp
    exact mem_mkPool (mem_simRank.mp h1)
  · rw [if_neg h]
    refine ⟨List.length_take_le _ _, fun p hp => ?_⟩
    have h1 : p ∈ priceFiltOf sim catalog qe limit query mp :=
      List.take_subset _ _ hp
    have h2 : p ∈ catFiltOf sim catalog qe limit query :=
      applyPrice_subset _ _ h1
    have h3 : p ∈ (poolOf sim catalog qe).take (limit * 3) :=
      filter_by_category_subset _ _ h2
    have h4 : p ∈ poolOf sim catalog qe := List.take_subset _ _ h3
    exact mem_mkPool (mem_simRank.mp h4)

theorem firstMatch_append_of_none {pre : List (List Char)} {s : List Char}
    (h : ∀ k ∈ pre, searchPat k s = none) (rest : List (List Char)) :
    firstMatch (pre ++ rest) s = firstMatch rest s := by
  induction pre with
  | nil => rfl
  | cons k ks ih =>
    have hk : searchPat k s = none := h k (List.mem_cons_self _ _)
    simp only [List.cons_append, firstMatch, hk]
    exact ih fun x hx => h x (List.mem_cons_of_mem _ hx)

/-- C7: for every query, when embedding generation fails after retry
exhaustion (modelled as `embedResult = none`), `search` returns the empty
list — a status-level "no results" — instead of propagating an error. -/
theorem C7_embed_failure_returns_empty (sim : List ℚ → List ℚ → ℚ)
    (catalog : List Doc) (query : String) (limit : ℕ) (mp : Option ℚ) :
    ragSearch sim catalog none query limit mp = [] := rfl

/-- C5: for every catalog, query and limit N, `search` returns at most N
results, and every returned result corresponds to a catalog product that
has a stored embedding. -/
theorem C5_search_bounded_and_from_catalog (sim : List ℚ → List ℚ → ℚ)
    (catalog : List Doc) (embedResult : Option (List ℚ)) (query : String)
    (limit : ℕ) (mp : Option ℚ) :
    (ragSearch sim catalog embedResult query limit mp).length ≤ limit ∧
    ∀ p ∈ ragSearch sim catalog embedResult query limit mp,
      ∃ d ∈ catalog, (d.embedding).isSome ∧ p.id = d.id ∧ p.name = d.name ∧
        p.price = d.price ∧ p.category = d.category ∧
        p.description = d.description := by
  cases embedResult with
  | none =>
    constructor
    · simp [ragSearch]
    · intro p hp
      simp [ragSearch] at hp
  | some qe => exact fallback_bounded_in_catalog sim catalog qe limit query _

/-- Witness for C5 at a concrete catalog, query and result element. -/
theorem C5_witness :
    (ragSearch simHead mouseCatalog (some [0]) "mouse" 1 none).length ≤ 1 ∧
    ∃ d ∈ mouseCatalog, (d.embedding).isSome ∧
      ({ id := "M1", name := "USB Mouse", price := 100,
         category := "Accessories", description := "A wired mouse",
         similarity := 2 } : Product).id = d.id ∧
      ({ id := "M1", name := "USB Mouse", price := 100,
         category := "Accessories", description := "A wired mouse",
         similarity := 2 } : Product).name = d.name ∧
      ({ id := "M1", name := "USB Mouse", price := 100,
         category := "Accessories", description := "A wired mouse",
         similarity := 2 } : Product).price = d.price ∧
      ({ id := "M1", name := "USB Mouse", price := 100,
         category := "Accessories", description := "A wired mouse",
         similarity := 2 } : Product).category = d.category ∧
      ({ id := "M1", name := "USB Mouse", price := 100,
         category := "Accessories", description := "A wired mouse",
         similarity := 2 } : Product).description = d.description :=
  ⟨(C5_search_bounded_and_from_catalog simHead mouseCatalog (some [0])
      "mouse" 1 none).1,
   (C5_search_bounded_and_from_catalog simHead mouseCatalog (some [0])
      "mouse" 1 none).2 _ (by decide)⟩

/-- C1 counterexample: on the sample catalog with query "desk under 100"
(ceiling 100), the category filter keeps only the desk, the price filter
then empties the list, and the search falls back to the UNFILTERED
similarity-ranked pool — not to the pre-price-filter category-filtered
list as the claim states; moreover with limit 0 the result is empty even
though the unfiltered pool is not. -/
theorem C1_counterexample :
    (catFiltOf simHead sampleCatalog [0] 5 "desk under 100" ≠ [] ∧
     priceFiltOf simHead sampleCatalog [0] 5 "desk under 100" (some 100) = [] ∧
     ragSearch simHead sampleCatalog (some [0]) "desk under 100" 5 none ≠
       catFiltOf simHead sampleCatalog [0] 5 "desk under 100") ∧
    (mkPool simHead [0] sampleCatalog ≠ [] ∧
     ragSearch simHead sampleCatalog (some [0]) "desk under 100" 0 none = []) := by
  decide

/-- C1 (amended): with an active price ceiling m, the price filter retains
only candidates with price ≤ m; if it leaves nothing, the search falls
back to the unfiltered similarity-ranked pool truncated to limit; and for
limit ≥ 1, a non-empty unfiltered scored pool yields a non-empty result. -/
theorem C1_price_filter_degrade (sim : List ℚ → List ℚ → ℚ)
    (catalog : List Doc) (qe : List ℚ) (limit : ℕ) (query : String) (m : ℚ)
    (hm : m ≠ 0) (hl : 1 ≤ limit) :
    (∀ p ∈ priceFiltOf sim catalog qe limit query (some m), p.price ≤ m) ∧
    (priceFiltOf sim catalog qe limit query (some m) = [] →
      fallback_search sim catalog qe limit query (some m) =
        (poolOf sim catalog qe).take limit) ∧
    (mkPool sim qe catalog ≠ [] →
      fallback_search sim catalog qe limit query (some m) ≠ []) := by
  refine ⟨fun p hp => mem_applyPrice_le hm hp, ?_, ?_⟩
  · intro h
    rw [fallback_search_eq, if_pos (by rw [h]; rfl)]
  · intro hpool
    have hlen : poolOf sim catalog qe ≠ [] := by
      intro h0
      apply hpool
      have := congrArg List.length h0
      rw [poolOf, simRank, List.length_insertionSort] at this
      exact List.length_eq_zero.mp this
    rw [fallback_search_eq]
    by_cases h : (priceFiltOf sim catalog qe limit query (some m)).isEmpty
    · rw [if_pos h]
      intro hc
      rcases List.take_eq_nil_iff.mp hc with h0 | h0
      · omega
      · exact hlen h0
    · rw [if_neg h]
      intro hc
      rcases List.take_eq_nil_iff.mp hc with h0 | h0
      · omega
      · rw [h0] at h
        exact h rfl

/-- Witness for C1 at a concrete catalog, query, ceiling and limit. -/
theorem C1_witness :
    (∀ p ∈ priceFiltOf simHead mouseCatalog [0] 5 "mouse" (some 50),
      p.price ≤ 50) ∧
    (priceFiltOf simHead mouseCatalog [0] 5 "mouse" (some 50) = [] →
      fallback_search simHead mouseCatalog [0] 5 "mouse" (some 50) =
        (poolOf simHead mouseCatalog [0]).take 5) ∧
    (mkPool simHead [0] mouseCatalog ≠ [] →
      fallback_search simHead mouseCatalog [0] 5 "mouse" (some 50) ≠ []) :=
  C1_price_filter_degrade simHead mouseCatalog [0] 5 "mouse" 50
    (by norm_num) (by norm_num)

/-- C2 counterexample: a keyword occurring in several fields contributes
only its first matching field's weight (3 for "mouse" in all three fields,
not the claim's additive 3+2+1=6), and on a concrete candidate pair the
filter's output order differs from the claim-worded additive filter. -/
theorem C2_counterexample :
    matchScore ["mouse"] prodA = 3 ∧ matchScoreSpec ["mouse"] prodA = 6 ∧
    filter_by_category [prodN, prodD] "mouse" ≠
      filter_by_category_spec [prodN, prodD] "mouse" := by decide

/-- C2 (amended): with a non-empty keyword set, a candidate's match score
is the sum over keywords of the weight of the FIRST matching field only
(3 name, else 2 description, else 1 category); candidates with score 0
are discarded (the output is a permutation of the positive-score
survivors, each output member has positive score) and the output is
sorted by match score descending, then similarity descending. -/
theorem C2_category_filter (products : List Product) (query : String)
    (h : extract_category_keywords query ≠ []) :
    (∀ p : Product, matchScore (extract_category_keywords query) p =
      ((extract_category_keywords query).map (fun kw =>
        if isSub kw.toList (strLower p.name.toList) then 3
        else if isSub kw.toList (strLower p.description.toList) then 2
        else if isSub kw.toList (strLower p.category.toList) then 1
        else 0)).sum) ∧
    (filter_by_category products query).Perm
      (products.filter
        (fun p => 0 < matchScore (extract_category_keywords query) p)) ∧
    (∀ p ∈ filter_by_category products query,
      0 < matchScore (extract_category_keywords query) p) ∧
    (filter_by_category products query).Sorted
      (catRel (extract_category_keywords query)) := by
  refine ⟨fun p => matchScore_eq_sum _ p, ?_, ?_, ?_⟩
  · unfold filter_by_category
    rw [if_neg h]
    exact List.perm_insertionSort _ _
  · intro p hp
    unfold filter_by_category at hp
    rw [if_neg h] at hp
    have hmem := (List.perm_insertionSort _ _).mem_iff.mp hp
    exact of_decide_eq_true (List.mem_filter.mp hmem).2
  · unfold filter_by_category
    rw [if_neg h]
    exact List.sorted_insertionSort _ _

/-- Witness for C2 at a concrete candidate list and query. -/
theorem C2_witness :
    (filter_by_category [prodN, prodD] "mouse").Perm
      ([prodN, prodD].filter
        (fun p => 0 < matchScore (extract_category_keywords "mouse") p)) :=
  (C2_category_filter [prodN, prodD] "mouse" (by decide)).2.1

/-- C3 counterexample: `order_id.replace("ORD-", "")` removes EVERY
occurrence of "ORD-", so order "ORD-ORD-5" yields refund id "REF-5"
rather than the claim's prefix-replacement "REF-ORD-5". -/
theorem C3_counterexample :
    (process_refund
        { orders := ["ORD-ORD-5"], eligibility := [], refunds := [] }
        "ORD-ORD-5" "broken item").2.refund_id = some "REF-5" ∧
    "REF-5" ≠ "REF-" ++ String.drop "ORD-ORD-5" 4 := by decide

/-- C3 (amended): when the order exists, `process_refund` creates a
pending refund record under the id "REF-" prepended to the order id with
every occurrence of "ORD-" removed (equal to prefix replacement for
standard "ORD-<digits>" ids, e.g. "ORD-12345" ↦ "REF-12345"), recording
the order id and reason, and returns status "success" with that id; when
the order does not exist it returns status "error" and leaves the
database unchanged. -/
theorem C3_process_refund (db : DB) (oid reason : String) :
    (if oid ∈ db.orders then
      (process_refund db oid reason).2.status = "success" ∧
      (process_refund db oid reason).2.refund_id = some (refundIdOf oid) ∧
      List.lookup (refundIdOf oid) (process_refund db oid reason).1.refunds =
        some { order_id := oid, reason := reason, status := "pending" } ∧
      (process_refund db oid reason).1.orders = db.orders ∧
      (process_refund db oid reason).1.eligibility = db.eligibility
    else
      (process_refund db oid reason).2.status = "error" ∧
      (process_refund db oid reason).1 = db) ∧
    refundIdOf "ORD-12345" = "REF-12345" := by
  constructor
  · by_cases h : oid ∈ db.orders
    · rw [if_pos h]
      simp [process_refund, h, List.lookup]
    · rw [if_neg h]
      simp [process_refund, h]
  · decide

/-- C4 counterexample: with an existing order that has no eligibility
record, the eligibility stage escalates but emits "no_eligibility_data",
not the claim's "order_not_found". -/
theorem C4_counterexample :
    eligibility_checker_output
      (check_refund_eligibility
        { orders := ["ORD-77"], eligibility := [], refunds := [] }
        "ORD-77" ⟨false⟩).1 = "no_eligibility_data" ∧
    (check_refund_eligibility
        { orders := ["ORD-77"], eligibility := [], refunds := [] }
        "ORD-77" ⟨false⟩).2.escalate = true ∧
    "no_eligibility_data" ≠ "order_not_found" := by decide

/-- C4 (amended): `validate_order_id` answers "valid" with the escalate
flag left unset exactly when the order exists, and "invalid" with the
flag set exactly when it does not; `check_refund_eligibility` escalates
and the checker emits "no_eligibility_data" when no eligibility record
exists, escalates and emits "ineligible" when the record is not eligible,
and proceeds without escalating, emitting "eligible", when it is. -/
theorem C4_workflow_gates (db : DB) (oid : String) :
    ((validate_order_id db oid ⟨false⟩).1.status = "valid" ∧
      (validate_order_id db oid ⟨false⟩).2.escalate = false ↔
        oid ∈ db.orders) ∧
    ((validate_order_id db oid ⟨false⟩).1.status = "invalid" ∧
      (validate_order_id db oid ⟨false⟩).2.escalate = true ↔
        oid ∉ db.orders) ∧
    (match List.lookup oid db.eligibility with
     | none =>
       (check_refund_eligibility db oid ⟨false⟩).2.escalate = true ∧
       eligibility_checker_output
         (check_refund_eligibility db oid ⟨false⟩).1 = "no_eligibility_data"
     | some doc =>
       if doc.eligible.getD false then
         (check_refund_eligibility db oid ⟨false⟩).2.escalate = false ∧
         eligibility_checker_output
           (check_refund_eligibility db oid ⟨false⟩).1 = "eligible"
       else
         (check_refund_eligibility db oid ⟨false⟩).2.escalate = true ∧
         eligibility_checker_output
           (check_refund_eligibility db oid ⟨false⟩).1 = "ineligible") := by
  refine ⟨?_, ?_, ?_⟩
  · by_cases h : oid ∈ db.orders <;> simp [validate_order_id, h]
  · by_cases h : oid ∈ db.orders <;> simp [validate_order_id, h]
  · cases hl : List.lookup oid db.eligibility with
    | none => simp [check_refund_eligibility, hl, eligibility_checker_output]
    | some doc =>
      by_cases he : doc.eligible.getD false
      · simp [check_refund_eligibility, hl, he, eligibility_checker_output]
      · simp [check_refund_eligibility, hl, he, eligibility_checker_output]

/-- C6: for a query yielding no category keywords and no price constraint,
the category filter and the price filter are identity functions and the
search returns exactly the similarity-ranked pool truncated to limit. -/
theorem C6_no_filters (sim : List ℚ → List ℚ → ℚ) (catalog : List Doc)
    (qe : List ℚ) (query : String) (limit : ℕ)
    (hkw : extract_category_keywords query = [])
    (hpr : extract_price_constraint query = none) :
    (∀ l, filter_by_category l query = l) ∧
    (∀ l, applyPrice none l = l) ∧
    ragSearch sim catalog (some qe) query limit none =
      (poolOf sim catalog qe).take limit := by
  refine ⟨filter_by_category_nil_kws hkw, applyPrice_none, ?_⟩
  have h1 : ragSearch sim catalog (some qe) query limit none =
      fallback_search sim catalog qe limit query
        (extract_price_constraint query) := rfl
  rw [h1, hpr, fallback_search_eq]
  have h2 : priceFiltOf sim catalog qe limit query none =
      (poolOf sim catalog qe).take (limit * 3) := by
    rw [priceFiltOf, applyPrice_none, catFiltOf,
      filter_by_category_nil_kws hkw]
  rw [h2]
  by_cases h : ((poolOf sim catalog qe).take (limit * 3)).isEmpty
  · rw [if_pos h]
  · rw [if_neg h, List.take_take]
    congr 1
    omega

/-- Witness for C6 at a concrete keyword-free, price-free query. -/
theorem C6_witness :
    ragSearch simHead mouseCatalog (some [0]) "gaming gear" 5 none =
      (poolOf simHead mouseCatalog [0]).take 5 :=
  (C6_no_filters simHead mouseCatalog [0] "gaming gear" 5
    (by decide) (by decide)).2.2

/-- C8 counterexample: on "below 100 under 200" the extractor returns 200
(the "under" pattern is tried first), while the first numeric match in
the query is 100 (for "below"). -/
theorem C8_counterexample :
    extract_price_constraint "below 100 under 200" = some 200 ∧
    firstInQuery pricePatterns (strLower "below 100 under 200".toList) =
      some 100 ∧ (200 : ℚ) ≠ (100 : ℚ) := by decide

/-- C8 (amended): the extractor returns the match of the FIRST pattern in
the fixed order under/below/less than/cheaper than/max/maximum that
matches anywhere in the lowercased query (not the first match by query
position), and returns none exactly when no pattern matches. -/
theorem C8_price_extractor (query : String) :
    (extract_price_constraint query = none ↔
      ∀ kw ∈ pricePatterns, searchPat kw (strLower query.toList) = none) ∧
    (∀ (pre : List (List Char)) (kw : List Char) (post : List (List Char))
        (n : ℕ), pricePatterns = pre ++ kw :: post →
      (∀ k ∈ pre, searchPat k (strLower query.toList) = none) →
      searchPat kw (strLower query.toList) = some n →
      extract_price_constraint query = some (n : ℚ)) := by
  constructor
  · unfold extract_price_constraint
    cases hfm : firstMatch pricePatterns (strLower query.toList) with
    | some n =>
      simp only [hfm]
      constructor
      · intro h0
        exact Option.noConfusion h0
      · intro hall
        rw [(firstMatch_eq_none_iff _ _).mpr hall] at hfm
        exact Option.noConfusion hfm
    | none =>
      simp only [hfm]
      constructor
      · intro _
        exact (firstMatch_eq_none_iff _ _).mp hfm
      · intro _
        trivial
  · intro pre kw post n hsplit hpre hkw
    unfold extract_price_constraint
    rw [hsplit, firstMatch_append_of_none hpre]
    simp only [firstMatch, hkw]

/-- Witness for C8 at a concrete query matched by the fourth pattern. -/
theorem C8_witness :
    extract_price_constraint "cheaper than 30" = some 30 :=
  (C8_price_extractor "cheaper than 30").2
    ["under".toList, "below".toList, "less than".toList]
    "cheaper than".toList ["max".toList, "maximum".toList] 30
    (by decide) (by decide) (by decide)

/-- C9: on a successful `search_products` call (either path) the session
state records the first result's id and name, the query, the ordered list
of all returned ids, and resets the detailed-products list; on
"no_results" the session state is unchanged. -/
theorem C9_search_products_state (catalog : List Doc) (query : String)
    (rag : Option (List Product)) (st : SessionState) :
    (match (search_products catalog query rag st).1.items with
     | [] =>
       (search_products catalog query rag st).1.status = "no_results" ∧
       (search_products catalog query rag st).2 = st
     | first :: rest =>
       (search_products catalog query rag st).1.status = "success" ∧
       (search_products catalog query rag st).2.last_product_id =
         some first.id ∧
       (search_products catalog query rag st).2.last_product_name =
         some first.name ∧
       (search_products catalog query rag st).2.last_search_query =
         some query ∧
       (search_products catalog query rag st).2.products_to_detail =
         some ((first :: rest).map (·.id)) ∧
       (search_products catalog query rag st).2.detailed_product_ids =
         some []) := by
  cases rag with
  | some products =>
    cases products with
    | nil => simp [search_products]
    | cons p ps => simp [search_products, saveSearchState]
  | none =>
    cases hk : keywordSearch catalog query with
    | nil => simp [search_products, hk]
    | cons r rs => simp [search_products, hk, saveSearchState]

/-- C10 counterexample: passing max_price = 0 is NOT identical to an
absent max_price for every query: on "mouse under 50" the absent-ceiling
call extracts 50 from the text and filters, while the 0-ceiling call
suppresses both extraction and filtering. -/
theorem C10_counterexample :
    ragSearch simHead mouseCatalog (some [0]) "mouse under 50" 5 (some 0) ≠
      ragSearch simHead mouseCatalog (some [0]) "mouse under 50" 5 none := by
  decide

/-- C10 (amended): a ceiling of 0 applies no price filtering, and a call
with max_price = 0 returns the same result as a call with max_price
absent whenever the query's own extracted constraint is none or 0. -/
theorem C10_zero_ceiling (sim : List ℚ → List ℚ → ℚ) (catalog : List Doc)
    (qe : List ℚ) (query : String) (limit : ℕ) :
    (∀ l, applyPrice (some 0) l = l) ∧
    ((extract_price_constraint query = none ∨
       extract_price_constraint query = some 0) →
      ragSearch sim catalog (some qe) query limit (some 0) =
        ragSearch sim catalog (some qe) query limit none) := by
  refine ⟨applyPrice_zero, ?_⟩
  intro h
  have e1 : ragSearch sim catalog (some qe) query limit (some 0) =
      fallback_search sim catalog qe limit query (some 0) := rfl
  have e2 : ragSearch sim catalog (some qe) query limit none =
      fallback_search sim catalog qe limit query
        (extract_price_constraint query) := rfl
  have hfb : ∀ mp1 mp2 : Option ℚ, applyPrice mp1 = applyPrice mp2 →
      fallback_search sim catalog qe limit query mp1 =
        fallback_search sim catalog qe limit query mp2 := by
    intro mp1 mp2 hap
    rw [fallback_search_eq, fallback_search_eq, priceFiltOf, priceFiltOf, hap]
  rw [e1, e2]
  rcases h with h | h
  · rw [h]
    exact hfb _ _ (by funext l; rw [applyPrice_zero, applyPrice_none])
  · rw [h]

/-- Witness for C10 at the query "under $0", whose extracted ceiling is 0. -/
theorem C10_witness :
    ragSearch simHead mouseCatalog (some [0]) "under $0" 5 (some 0) =
      ragSearch simHead mouseCatalog (some [0]) "under $0" 5 none :=
  (C10_zero_ceiling simHead mouseCatalog [0] "under $0" 5).2
    (Or.inr (by decide))
